import Mathlib

/-!
Verification of the metrics normalization engine of the Chronos repository
(`examples/gRPC/reverse_proxy/bookClient.js`, the `helpers` object).

The JavaScript code is shallowly embedded: strings are `List Char` / `String`,
JS numbers are idealized as exact rationals plus the special values `NaN`,
`Infinity` and `-Infinity` (float64 rounding and overflow are not modelled),
and JS `undefined` appears as an explicit value where out-of-range indexing
can produce it.  Side-effecting diagnostics (`console.error`) are modelled as
an explicit list of reported items, and a thrown exception caught by the
`catch` branch of a query function is modelled by an `Option`/`Except` result.
-/

set_option autoImplicit false

namespace Chronos

/-- The result of a JS numeric coercion: `NaN`, the two infinities, or a
finite value idealized as an exact rational. -/
inductive JSNum where
  | nan
  | inf
  | neginf
  | fin (q : ℚ)
deriving DecidableEq, Repr

/-- A JS scalar value as it occurs in the fields the engine reads: a string,
a number, or `undefined` (produced e.g. by indexing past the end of an
array). -/
inductive JSVal where
  | str (s : String)
  | num (n : JSNum)
  | undefined
deriving DecidableEq, Repr

/-- Characters treated as whitespace by the JS `StringToNumber` conversion
(the common ASCII whitespace; exotic Unicode space classes are not used by
any payload considered here). -/
def jsWhitespace (c : Char) : Bool :=
  c = ' ' || c = '\t' || c = '\n' || c = '\r' || c = '\x0b' || c = '\x0c'

/-- Strip leading and trailing JS whitespace. -/
def trimWhite (s : List Char) : List Char :=
  ((s.dropWhile jsWhitespace).reverse.dropWhile jsWhitespace).reverse

/-- Value of a run of decimal digit characters. -/
def digitsToNat (ds : List Char) : Nat :=
  ds.foldl (fun a c => 10 * a + (c.toNat - 48)) 0

/-- Split a character list into its leading run of decimal digits and the
rest. -/
def decDigitsSplit (s : List Char) : List Char × List Char :=
  (s.takeWhile Char.isDigit, s.dropWhile Char.isDigit)

/-- Parse the optional exponent part of a JS decimal literal applied to an
already-parsed mantissa `q`; the whole remainder must be consumed. -/
def parseExpPart (q : ℚ) : List Char → Option ℚ
  | [] => some q
  | c :: rest =>
    if c = 'e' || c = 'E' then
      let sr : Bool × List Char :=
        match rest with
        | '+' :: r => (false, r)
        | '-' :: r => (true, r)
        | r => (false, r)
      let dr := decDigitsSplit sr.2
      if dr.1.isEmpty || !dr.2.isEmpty then none
      else
        some (q * (if sr.1 then ((10 : ℚ) ^ digitsToNat dr.1)⁻¹
                   else (10 : ℚ) ^ digitsToNat dr.1))
    else none

/-- Parse an unsigned JS decimal literal (`123`, `123.`, `.5`, `1.5e-2`, ...),
consuming the whole character list. -/
def parseUnsignedDec (s : List Char) : Option ℚ :=
  let ir := decDigitsSplit s
  match ir.2 with
  | '.' :: r2 =>
    let fr := decDigitsSplit r2
    if ir.1.isEmpty && fr.1.isEmpty then none
    else
      parseExpPart
        ((digitsToNat ir.1 : ℚ) + (digitsToNat fr.1 : ℚ) / (10 : ℚ) ^ fr.1.length)
        fr.2
  | _ => if ir.1.isEmpty then none else parseExpPart (digitsToNat ir.1 : ℚ) ir.2

/-- Value of a single hexadecimal digit character, if any. -/
def hexVal (c : Char) : Option Nat :=
  if c.isDigit then some (c.toNat - 48)
  else if 'a' ≤ c && c ≤ 'f' then some (c.toNat - 87)
  else if 'A' ≤ c && c ≤ 'F' then some (c.toNat - 55)
  else none

/-- Accumulate digits of the given radix; fails on any out-of-radix
character. -/
def parseRadixAux (radix : Nat) (acc : Nat) : List Char → Option Nat
  | [] => some acc
  | c :: r =>
    match hexVal c with
    | some d => if d < radix then parseRadixAux radix (radix * acc + d) r else none
    | none => none

/-- Parse a non-empty digit string in the given radix. -/
def parseRadix (radix : Nat) : List Char → Option Nat
  | [] => none
  | c :: r => parseRadixAux radix 0 (c :: r)

/-- Unsigned part of a JS numeric string: `Infinity` or a decimal literal,
negated when `neg` is set. -/
def strToNumUnsigned (r : List Char) (neg : Bool) : JSNum :=
  if r = ['I', 'n', 'f', 'i', 'n', 'i', 't', 'y'] then
    (if neg then .neginf else .inf)
  else
    match parseUnsignedDec r with
    | some q => .fin (if neg then -q else q)
    | none => .nan

/-- Optional sign followed by the unsigned part. -/
def strToNumSigned (t : List Char) : JSNum :=
  match t with
  | '+' :: r => strToNumUnsigned r false
  | '-' :: r => strToNumUnsigned r true
  | r => strToNumUnsigned r false

/-- JS `StringToNumber` (the conversion applied by `Number(s)` and by
`isNaN(s)` on a string argument): trims whitespace, maps the empty string to
`0`, recognizes `0x`/`0o`/`0b` radix literals, signed decimal literals and
`Infinity`; everything else is `NaN`. -/
def strToNum (s : List Char) : JSNum :=
  match trimWhite s with
  | [] => .fin 0
  | '0' :: c :: rest =>
    if c = 'x' || c = 'X' then
      (match parseRadix 16 rest with | some n => .fin n | none => .nan)
    else if c = 'o' || c = 'O' then
      (match parseRadix 8 rest with | some n => .fin n | none => .nan)
    else if c = 'b' || c = 'B' then
      (match parseRadix 2 rest with | some n => .fin n | none => .nan)
    else strToNumSigned ('0' :: c :: rest)
  | t => strToNumSigned t

/-- JS `ToNumber` on the scalar values the engine inspects: numbers pass
through, strings go through `strToNum`, and `undefined` converts to `NaN`. -/
def toNumber : JSVal → JSNum
  | .str s => strToNum s.data
  | .num n => n
  | .undefined => .nan

/-- The record shape produced by both parsing modes
(`{ metric, value, time, category }`). -/
structure MetricRecord where
  metric : String
  value : JSVal
  time : Nat
  category : String
deriving DecidableEq, Repr

/-- JS `String.prototype.lastIndexOf` for a single character: the index of
the last occurrence, `-1` when absent. -/
def jsLastIndexOf (s : List Char) (c : Char) : Int :=
  match s with
  | [] => -1
  | x :: rest =>
    let r := jsLastIndexOf rest c
    if 0 ≤ r then r + 1
    else if x = c then 0 else -1

/-- JS `String.prototype.slice` with two arguments: negative indices count
from the end, and both endpoints are clamped to the string. -/
def jsSlice (s : List Char) (start stop : Int) : List Char :=
  let len : Int := s.length
  let b := if start < 0 then max (len + start) 0 else min start len
  let e := if stop < 0 then max (len + stop) 0 else min stop len
  (s.take e.toNat).drop b.toNat

/-- JS `String.prototype.slice` with one argument. -/
def jsSliceFrom (s : List Char) (start : Int) : List Char :=
  let len : Int := s.length
  let b := if start < 0 then max (len + start) 0 else min start len
  s.drop b.toNat

/-- JS `text.split('\n')` (line 211 of `bookClient.js`): the list of
newline-separated segments; the empty string yields one empty segment. -/
def splitLines : List Char → List (List Char)
  | [] => [[]]
  | c :: rest =>
    if c = '\n' then [] :: splitLines rest
    else
      match splitLines rest with
      | [] => [[c]]
      | l :: ls => (c :: l) :: ls

/-- Lines 224–234 of `bookClient.js`, the per-line body of `extractWord`
after the filters: split at the last space, coerce the tail to a number, and
either emit one record or report the line on the diagnostic channel
(`console.error`).  Returns `(records, diagnostics)`. -/
def parseLineCore (time : Nat) (element : List Char) : List MetricRecord × List String :=
  let lastSpace := jsLastIndexOf element ' '
  let metric : String := ⟨jsSlice element 0 lastSpace⟩
  let value := strToNum (jsSliceFrom element (lastSpace + 1))
  if value ≠ .nan then ([⟨metric, .num value, time, "Event"⟩], [])
  else ([], [String.mk element])

/-- The loop of `extractWord` (lines 215–235 of `bookClient.js`) over the
split lines: blank lines and `#`-comments are skipped, the `jmx`/`'jmx`
leaders are skipped in `kafka` mode only, and every other line goes through
`parseLineCore`. -/
def extractWordAux (mode : String) (time : Nat) : List (List Char) → List MetricRecord × List String
  | [] => ([], [])
  | element :: rest =>
    let r := extractWordAux mode time rest
    if element = [] ∨ element.head? = some '#' then r
    else if mode = "kafka" ∧
        (element.take 3 = ['j', 'm', 'x'] ∨ element.take 4 = ['\'', 'j', 'm', 'x']) then r
    else
      let p := parseLineCore time element
      (p.1 ++ r.1, p.2 ++ r.2)

/-- `helpers.extractWord` (lines 209–238 of `bookClient.js`).  `Date.now()`
is passed in as the batch timestamp `time`; the second component collects the
lines reported via `console.error`. -/
def extractWord (mode : String) (text : String) (time : Nat) : List MetricRecord × List String :=
  extractWordAux mode time (splitLines text.data)

/-- The `metric` sub-object of a structured-mode entry; `none` models an
absent (`undefined`) label field. -/
structure PromMetric where
  job : Option String
  instance_ : Option String
  __name__ : Option String
deriving DecidableEq, Repr

/-- The `value` field of a structured-mode entry: a string or number scalar,
or an array (whose elements are scalars: the Prometheus sample shape
`[timestamp, "value"]`). -/
inductive PromValue where
  | str (s : String)
  | num (n : JSNum)
  | arr (l : List JSVal)
deriving DecidableEq, Repr

/-- One entry of the decoded structured result (`data.data.result[i]`). -/
structure PromEntry where
  metric : PromMetric
  value : PromValue
deriving DecidableEq, Repr

/-- JS truthiness of a possibly-absent string field (`!info.metric.job`):
`undefined` and the empty string are falsy. -/
def truthy : Option String → Bool
  | none => false
  | some s => s ≠ ""

/-- JS string conversion of a possibly-absent string field as it happens in
string concatenation: an absent field prints as `"undefined"`. -/
def jsStr : Option String → String
  | none => "undefined"
  | some s => s

/-- Line 281 of `bookClient.js`: the derived identity
`job + '/' + instance + '/' + __name__`. -/
def derivedName (m : PromMetric) : String :=
  jsStr m.job ++ "/" ++ jsStr m.instance_ ++ "/" ++ jsStr m.__name__

/-- Lines 291–292 of `bookClient.js`: take `info.value`, and when it is an
array replace it by `info.value[1]` (JS indexing past the end yields
`undefined`). -/
def promValueOf : PromValue → JSVal
  | .str s => .str s
  | .num n => .num n
  | .arr l => l.getD 1 .undefined

/-- The loop of `parseProm` (lines 278–301 of `bookClient.js`), carrying the
`names` seen-set (the JS `Set` is modelled as the list of added names). -/
def parsePromAux (time : Nat) (names : List String) : List PromEntry → List MetricRecord
  | [] => []
  | info :: rest =>
    if !truthy info.metric.job then parsePromAux time names rest
    else
      let name := derivedName info.metric
      if name ∈ names then parsePromAux time names rest
      else
        let value := promValueOf info.value
        if toNumber value = .nan ∨ value = .str "NaN" then
          parsePromAux time (name :: names) rest
        else
          ⟨name, value, time, "Event"⟩ :: parsePromAux time (name :: names) rest

/-- `helpers.parseProm` (lines 261–304 of `bookClient.js`), with `Date.now()`
passed in as the batch timestamp. -/
def parseProm (data : List PromEntry) (time : Nat) : List MetricRecord :=
  parsePromAux time [] data

/-- The record an entry would contribute ignoring deduplication and the NaN
check: `none` exactly when the entry fails the `job` truthiness test.  Used
to state that retained records follow input order. -/
def promCandidate (time : Nat) (info : PromEntry) : Option MetricRecord :=
  if truthy info.metric.job then
    some ⟨derivedName info.metric, promValueOf info.value, time, "Event"⟩
  else none

/-- The configuration fields read by `helpers.getMetricsURI`. -/
structure ChronosConfig where
  mode : String
  jmxuri : String
  promService : String
  promPort : Nat
deriving DecidableEq, Repr

/-- Line 76 of `bookClient.js`: the mode strings accepted by
`validateInput`. -/
def modeTypes : List String := ["kafka", "kubernetes", "microservices"]

/-- `helpers.getMetricsURI` (lines 157–165 of `bookClient.js`); the `throw`
of the final branch is modelled by `Except.error`. -/
def getMetricsURI (config : ChronosConfig) : Except String String :=
  if config.mode = "kafka" then .ok config.jmxuri
  else if config.mode = "kubernetes" then
    .ok ("http://" ++ config.promService ++ ":" ++ toString config.promPort
      ++ "/api/v1/query?query=")
  else .error "Unrecognized mode"

/-- The shape of the fetched response body as seen by the two query
functions: a string (what text-mode `split` needs), an enumerable sequence of
well-shaped entries (what structured-mode iteration needs), or anything
else. -/
inductive Payload where
  | text (s : String)
  | structured (result : List PromEntry)
  | malformed
deriving DecidableEq

/-- `helpers.kafkaMetricsQuery` (lines 192–200 of `bookClient.js`) after the
fetch: `extractWord` on a string body; any other body makes `split` throw,
and the `catch` branch logs and returns `undefined` (modelled `none`). -/
def kafkaMetricsQuery (mode : String) (p : Payload) (time : Nat) :
    Option (List MetricRecord × List String) :=
  match p with
  | .text s => some (extractWord mode s time)
  | _ => none

/-- `helpers.promMetricsQuery` (lines 245–254 of `bookClient.js`) after the
fetch: `parseProm` on a decoded entry sequence; any other body makes the
iteration (or the `.data.result` access) throw, and the `catch` branch logs
and returns `undefined` (modelled `none`). -/
def promMetricsQuery (p : Payload) (time : Nat) : Option (List MetricRecord) :=
  match p with
  | .structured result => some (parseProm result time)
  | _ => none

/-! ### Auxiliary lemmas about the embedded JS string primitives -/

theorem splitLines_no_nl {l : List Char} (h : '\n' ∉ l) : splitLines l = [l] := by
  induction l with
  | nil => rfl
  | cons c rest ih =>
    have hc : ¬ (c = '\n') := fun hc => h (hc ▸ List.mem_cons_self c rest)
    have hr : '\n' ∉ rest := fun hm => h (List.mem_cons_of_mem _ hm)
    simp [splitLines, hc, ih hr]

theorem jsLastIndexOf_of_not_mem {s : List Char} {c : Char} (h : c ∉ s) :
    jsLastIndexOf s c = -1 := by
  induction s with
  | nil => rfl
  | cons x rest ih =>
    have hx : ¬ (x = c) := fun hx => h (hx ▸ List.mem_cons_self x rest)
    have hr : c ∉ rest := fun hm => h (List.mem_cons_of_mem _ hm)
    simp [jsLastIndexOf, ih hr, hx]

theorem jsLastIndexOf_append {pre post : List Char} {c : Char} (h : c ∉ post) :
    jsLastIndexOf (pre ++ c :: post) c = pre.length := by
  induction pre with
  | nil => simp [jsLastIndexOf, jsLastIndexOf_of_not_mem h]
  | cons x rest ih =>
    have hnn : (0 : Int) ≤ rest.length := Int.ofNat_nonneg _
    simp [jsLastIndexOf, ih, hnn]

theorem jsSlice_zero_length {a b : List Char} :
    jsSlice (a ++ b) 0 (a.length : Int) = a := by
  unfold jsSlice
  have h1 : ¬ ((0 : Int) < 0) := by omega
  have h2 : ¬ ((a.length : Int) < 0) := by omega
  have h3 : (min ((a.length : Int)) (((a ++ b).length : Int))).toNat = a.length := by
    simp [List.length_append]
  have h4 : (min (0 : Int) (((a ++ b).length : Int))).toNat = 0 := by
    simp
  simp only [if_neg h1, if_neg h2, h3, h4, List.drop_zero]
  exact List.take_left a b

theorem jsSliceFrom_append {a b : List Char} {c : Char} :
    jsSliceFrom (a ++ c :: b) ((a.length : Int) + 1) = b := by
  unfold jsSliceFrom
  have h1 : ¬ ((a.length : Int) + 1 < 0) := by omega
  have h2 : (min ((a.length : Int) + 1) (((a ++ c :: b).length : Int))).toNat
      = a.length + 1 := by
    simp only [List.length_append, List.length_cons]
    omega
  simp only [if_neg h1, h2]
  have h3 : a ++ c :: b = (a ++ [c]) ++ b := by simp
  have h4 : a.length + 1 = (a ++ [c]).length := by simp
  rw [h3, h4, List.drop_left]

theorem jsSlice_zero_neg_one {s : List Char} (h : s ≠ []) :
    jsSlice s 0 (-1) = s.dropLast := by
  unfold jsSlice
  have hlen : 1 ≤ s.length := List.length_pos.mpr h
  have h1 : ¬ ((0 : Int) < 0) := by omega
  have h2 : ((-1 : Int) < 0) := by omega
  have h3 : (max ((s.length : Int) + -1) 0).toNat = s.length - 1 := by omega
  have h4 : (min (0 : Int) ((s.length : Int))).toNat = 0 := by simp
  simp only [if_neg h1, if_pos h2, h3, h4, List.drop_zero]
  exact (List.dropLast_eq_take s).symm

theorem jsSliceFrom_zero {s : List Char} : jsSliceFrom s 0 = s := by
  unfold jsSliceFrom
  have h1 : ¬ ((0 : Int) < 0) := by omega
  have h4 : (min (0 : Int) ((s.length : Int))).toNat = 0 := by simp
  simp only [if_neg h1, h4, List.drop_zero]

/-! ### Per-line behavior of the text-mode parser -/

theorem parseLineCore_split (t : Nat) (pre post : List Char) (h : ' ' ∉ post) :
    parseLineCore t (pre ++ ' ' :: post) =
      if strToNum post ≠ .nan then
        ([⟨⟨pre⟩, .num (strToNum post), t, "Event"⟩], [])
      else ([], [String.mk (pre ++ ' ' :: post)]) := by
  simp only [parseLineCore]
  rw [jsLastIndexOf_append h, jsSlice_zero_length, jsSliceFrom_append]

theorem parseLineCore_no_space (t : Nat) (l : List Char) (h : ' ' ∉ l) (hne : l ≠ []) :
    parseLineCore t l =
      if strToNum l ≠ .nan then
        ([⟨⟨l.dropLast⟩, .num (strToNum l), t, "Event"⟩], [])
      else ([], [String.mk l]) := by
  simp only [parseLineCore]
  rw [jsLastIndexOf_of_not_mem h, jsSlice_zero_neg_one hne]
  norm_num [jsSliceFrom_zero]

theorem extractWord_single (mode : String) (t : Nat) (l : List Char)
    (hnl : '\n' ∉ l) (hne : l ≠ []) (hh : ¬ (l.head? = some '#'))
    (hk : ¬ (mode = "kafka" ∧
      (l.take 3 = ['j', 'm', 'x'] ∨ l.take 4 = ['\'', 'j', 'm', 'x']))) :
    extractWord mode ⟨l⟩ t = parseLineCore t l := by
  unfold extractWord
  show extractWordAux mode t (splitLines l) = _
  rw [splitLines_no_nl hnl]
  simp [extractWordAux, hne, hh, hk]

theorem parseLineCore_time (t : Nat) (e : List Char) :
    ∀ r ∈ (parseLineCore t e).1, r.time = t := by
  intro r hr
  simp only [parseLineCore] at hr
  split at hr
  · simp at hr; subst hr; rfl
  · simp at hr

theorem parseLineCore_value (t : Nat) (e : List Char) :
    ∀ r ∈ (parseLineCore t e).1, ∃ n, r.value = .num n ∧ n ≠ JSNum.nan := by
  intro r hr
  simp only [parseLineCore] at hr
  split at hr
  case isTrue h => simp at hr; subst hr; exact ⟨_, rfl, h⟩
  case isFalse h => simp at hr

theorem extractWordAux_mem (mode : String) (t : Nat) (ls : List (List Char)) :
    ∀ r ∈ (extractWordAux mode t ls).1, ∃ e ∈ ls, r ∈ (parseLineCore t e).1 := by
  induction ls with
  | nil => intro r hr; simp [extractWordAux] at hr
  | cons e rest ih =>
    intro r hr
    unfold extractWordAux at hr
    split at hr
    · obtain ⟨e', he', hr'⟩ := ih r hr
      exact ⟨e', List.mem_cons_of_mem _ he', hr'⟩
    · split at hr
      · obtain ⟨e', he', hr'⟩ := ih r hr
        exact ⟨e', List.mem_cons_of_mem _ he', hr'⟩
      · rcases List.mem_append.mp hr with h | h
        · exact ⟨e, List.mem_cons_self _ _, h⟩
        · obtain ⟨e', he', hr'⟩ := ih r h
          exact ⟨e', List.mem_cons_of_mem _ he', hr'⟩

/-! ### Structural lemmas about the structured-mode parser -/

theorem parsePromAux_time (t : Nat) (data : List PromEntry) :
    ∀ names, ∀ r ∈ parsePromAux t names data, r.time = t := by
  induction data with
  | nil => intro names r hr; simp [parsePromAux] at hr
  | cons info rest ih =>
    intro names r hr
    simp only [parsePromAux] at hr
    split at hr
    · exact ih names r hr
    · split at hr
      · exact ih names r hr
      · split at hr
        · exact ih _ r hr
        · rcases List.mem_cons.mp hr with h | h
          · subst h; rfl
          · exact ih _ r h

theorem parsePromAux_value (t : Nat) (data : List PromEntry) :
    ∀ names, ∀ r ∈ parsePromAux t names data,
      toNumber r.value ≠ JSNum.nan ∧ r.value ≠ JSVal.str "NaN" := by
  induction data with
  | nil => intro names r hr; simp [parsePromAux] at hr
  | cons info rest ih =>
    intro names r hr
    simp only [parsePromAux] at hr
    split at hr
    · exact ih names r hr
    · split at hr
      · exact ih names r hr
      · split at hr
        · exact ih _ r hr
        · rcases List.mem_cons.mp hr with h | h
          · subst h
            rename_i hguard
            push_neg at hguard
            exact hguard
          · exact ih _ r h

theorem parsePromAux_not_mem (t : Nat) (data : List PromEntry) :
    ∀ names, ∀ r ∈ parsePromAux t names data, r.metric ∉ names := by
  induction data with
  | nil => intro names r hr; simp [parsePromAux] at hr
  | cons info rest ih =>
    intro names r hr
    simp only [parsePromAux] at hr
    split at hr
    · exact ih names r hr
    · split at hr
      · exact ih names r hr
      · split at hr
        · exact fun hm => ih _ r hr (List.mem_cons_of_mem _ hm)
        · rcases List.mem_cons.mp hr with h | h
          · subst h
            rename_i hnot _
            exact hnot
          · exact fun hm => ih _ r h (List.mem_cons_of_mem _ hm)

theorem parsePromAux_nodup (t : Nat) (data : List PromEntry) :
    ∀ names, ((parsePromAux t names data).map (·.metric)).Nodup := by
  induction data with
  | nil => intro names; simp [parsePromAux]
  | cons info rest ih =>
    intro names
    simp only [parsePromAux]
    split
    · exact ih names
    · split
      · exact ih names
      · split
        · exact ih _
        · rw [List.map_cons, List.nodup_cons]
          refine ⟨?_, ih _⟩
          intro hmem
          obtain ⟨r, hr, hrm⟩ := List.mem_map.mp hmem
          exact parsePromAux_not_mem t rest _ r hr (hrm ▸ List.mem_cons_self _ _)

theorem parsePromAux_sublist (t : Nat) (data : List PromEntry) :
    ∀ names, List.Sublist (parsePromAux t names data) (data.filterMap (promCandidate t)) := by
  induction data with
  | nil => intro names; simp [parsePromAux]
  | cons info rest ih =>
    intro names
    simp only [parsePromAux]
    split
    · rename_i hfalsy
      rw [List.filterMap_cons_none]
      · exact ih names
      · simp only [Bool.not_eq_true'] at hfalsy
        simp [promCandidate, hfalsy]
    · rename_i htruthy
      have ht : truthy info.metric.job = true := by
        revert htruthy; cases truthy info.metric.job <;> simp
      have hc : promCandidate t info =
          some ⟨derivedName info.metric, promValueOf info.value, t, "Event"⟩ := by
        simp [promCandidate, ht]
      rw [List.filterMap_cons_some hc]
      split
      · exact List.Sublist.cons _ (ih names)
      · split
        · exact List.Sublist.cons _ (ih _)
        · exact List.Sublist.cons₂ _ (ih _)

/-! ### Claim theorems -/

/-- C1 (counterexample): for the structured-mode entry with
`value: [1700000000, "3.14"]` the emitted record's `value` field is the
string `"3.14"`, not a number: `parseProm` pushes the second array element
verbatim (coercion is applied only inside the `isNaN` test), so the record's
value is never of numeric shape. -/
theorem c1_counterexample :
    (parseProm [⟨⟨some "job", some "inst", some "name"⟩,
        .arr [.num (.fin 1700000000), .str "3.14"]⟩] 0).map (·.value)
      = [JSVal.str "3.14"] ∧
    ∀ n : JSNum, JSVal.str "3.14" ≠ JSVal.num n := by
  refine ⟨by decide, fun n h => JSVal.noConfusion h⟩

/-- C1 (amended): in structured mode, for an entry whose value field is the
2-element sequence form, the second element is taken as the candidate value
and numeric coercion is used only for the NaN rejection test; the record
emitted for such an entry carries the second element verbatim as its value
field. -/
theorem c1_amended (m : PromMetric) (ts v2 : JSVal) (t : Nat)
    (hj : truthy m.job = true)
    (hn : toNumber v2 ≠ JSNum.nan) (hs : v2 ≠ JSVal.str "NaN") :
    parseProm [⟨m, .arr [ts, v2]⟩] t = [⟨derivedName m, v2, t, "Event"⟩] := by
  have hpv : promValueOf (.arr [ts, v2]) = v2 := rfl
  simp [parseProm, parsePromAux, hj, hpv, hn, hs]

/-- C1 (witness): the amended statement evaluated on the spec's example
entry. -/
theorem c1_witness :
    parseProm [⟨⟨some "job", some "inst", some "name"⟩,
        .arr [.num (.fin 1700000000), .str "3.14"]⟩] 0
      = [⟨derivedName ⟨some "job", some "inst", some "name"⟩, .str "3.14", 0, "Event"⟩] :=
  c1_amended ⟨some "job", some "inst", some "name"⟩ (.num (.fin 1700000000))
    (.str "3.14") 0 (by decide) (by decide) (by decide)

/-- C2 (counterexample): on a payload that does not decode, the structured
query returns `undefined` (modelled `none`) — which is not a batch at all, in
particular not the empty batch `some []`. -/
theorem c2_counterexample :
    promMetricsQuery Payload.malformed 0 = none ∧
    ∀ b : List MetricRecord, (none : Option (List MetricRecord)) ≠ some b :=
  ⟨rfl, fun _ h => Option.noConfusion h⟩

/-- C2 (amended): for every payload that cannot be decoded into the shape
expected by the active mode, the engine reports the failure (the logging
`catch` branch is taken) and returns `undefined` — the caller receives no
record batch, rather than an empty array of records. -/
theorem c2_amended (p : Payload) (t : Nat) (mode : String) :
    ((∀ result, p ≠ Payload.structured result) → promMetricsQuery p t = none) ∧
    ((∀ s, p ≠ Payload.text s) → kafkaMetricsQuery mode p t = none) := by
  constructor
  · intro h
    cases p with
    | text s => rfl
    | structured result => exact absurd rfl (h result)
    | malformed => rfl
  · intro h
    cases p with
    | text s => exact absurd rfl (h s)
    | structured result => rfl
    | malformed => rfl

/-- C2 (witness): both query functions on a malformed payload. -/
theorem c2_witness :
    promMetricsQuery Payload.malformed 0 = none ∧
    kafkaMetricsQuery "kafka" Payload.malformed 0 = none :=
  ⟨(c2_amended Payload.malformed 0 "kafka").1 (fun _ h => Payload.noConfusion h),
   (c2_amended Payload.malformed 0 "kafka").2 (fun _ h => Payload.noConfusion h)⟩

/-- C3 (counterexample): two entries with identical `job`, `instance` and
`__name__` yield ZERO records when the first one's value is the string
`"NaN"`: the first entry claims the identity in the seen-set before the NaN
check rejects it, and the second is then discarded as a duplicate — refuting
"exactly one record: the first such entry is retained". -/
theorem c3_counterexample :
    parseProm [⟨⟨some "a", some "i", some "n"⟩, .str "NaN"⟩,
               ⟨⟨some "a", some "i", some "n"⟩, .num (.fin 5)⟩] 0 = [] ∧
    (parseProm [⟨⟨some "a", some "i", some "n"⟩, .str "NaN"⟩,
               ⟨⟨some "a", some "i", some "n"⟩, .num (.fin 5)⟩] 0).length ≠ 1 := by
  refine ⟨by decide, by decide⟩

/-- C3 (amended): derived metric names in a batch are pairwise distinct;
retained records follow input order (the output is an in-order sub-sequence
of the per-entry candidate records); and for two entries sharing the same
metric labels (with a truthy `job`), the later one is always discarded
silently — the first claims the identity even when its own value is then
rejected as NaN, so the pair yields at most one record, the first entry's
record exactly when its value is valid. -/
theorem c3_amended :
    (∀ (data : List PromEntry) (t : Nat), ((parseProm data t).map (·.metric)).Nodup) ∧
    (∀ (data : List PromEntry) (t : Nat),
      List.Sublist (parseProm data t) (data.filterMap (promCandidate t))) ∧
    (∀ (m : PromMetric) (v1 v2 : PromValue) (t : Nat), truthy m.job = true →
      parseProm [⟨m, v1⟩, ⟨m, v2⟩] t =
        if toNumber (promValueOf v1) ≠ JSNum.nan ∧ promValueOf v1 ≠ JSVal.str "NaN"
        then [⟨derivedName m, promValueOf v1, t, "Event"⟩] else []) := by
  refine ⟨fun data t => parsePromAux_nodup t data [],
    fun data t => parsePromAux_sublist t data [], ?_⟩
  intro m v1 v2 t ht
  by_cases hv : toNumber (promValueOf v1) = JSNum.nan ∨ promValueOf v1 = JSVal.str "NaN"
  · rw [if_neg (fun hc => hv.elim hc.1 hc.2)]
    simp [parseProm, parsePromAux, ht, hv]
  · push_neg at hv
    rw [if_pos hv]
    simp [parseProm, parsePromAux, ht, hv.1, hv.2]

/-- C3 (witness): the amended statement on a duplicate pair with valid
values: exactly the first entry's record is produced. -/
theorem c3_witness :
    truthy (some "a") = true ∧
    parseProm [⟨⟨some "a", some "i", some "n"⟩, .num (.fin 5)⟩,
               ⟨⟨some "a", some "i", some "n"⟩, .num (.fin 6)⟩] 0 =
      (if toNumber (promValueOf (.num (.fin 5))) ≠ JSNum.nan ∧
          promValueOf (.num (.fin 5)) ≠ JSVal.str "NaN"
       then [⟨derivedName ⟨some "a", some "i", some "n"⟩,
          promValueOf (.num (.fin 5)), 0, "Event"⟩] else []) :=
  ⟨by decide, c3_amended.2.2 ⟨some "a", some "i", some "n"⟩
    (.num (.fin 5)) (.num (.fin 6)) 0 (by decide)⟩

/-- C4: in text mode, a surviving line decomposes at its last space: the
metric name is everything before it (embedded spaces preserved verbatim) and
the candidate value is everything after it; if the value substring coerces to
a number exactly one record with that metric and value is produced, otherwise
no record is produced and the line is reported on the diagnostic channel. -/
theorem c4_claim (mode : String) (t : Nat) (pre post : List Char)
    (hpost : ' ' ∉ post)
    (hnl : '\n' ∉ pre ++ ' ' :: post)
    (hh : ¬ ((pre ++ ' ' :: post).head? = some '#'))
    (hk : ¬ (mode = "kafka" ∧
      ((pre ++ ' ' :: post).take 3 = ['j', 'm', 'x'] ∨
       (pre ++ ' ' :: post).take 4 = ['\'', 'j', 'm', 'x']))) :
    extractWord mode ⟨pre ++ ' ' :: post⟩ t =
      if strToNum post ≠ JSNum.nan then
        ([⟨⟨pre⟩, .num (strToNum post), t, "Event"⟩], [])
      else ([], [String.mk (pre ++ ' ' :: post)]) := by
  rw [extractWord_single mode t _ hnl (by simp) hh hk, parseLineCore_split t pre post hpost]

/-- C4 (witness): the line `"a b 7"` in a non-kafka mode: metric `"a b"`
(embedded space kept), value `7`, no diagnostic. -/
theorem c4_witness :
    extractWord "microservices" ⟨['a', ' ', 'b'] ++ ' ' :: ['7']⟩ 3 =
      (if strToNum ['7'] ≠ JSNum.nan then
        ([⟨⟨['a', ' ', 'b']⟩, .num (strToNum ['7']), 3, "Event"⟩], [])
      else ([], [String.mk (['a', ' ', 'b'] ++ ' ' :: ['7'])])) ∧
    (⟨['a', ' ', 'b']⟩ : String) = "a b" ∧ strToNum ['7'] = .fin 7 :=
  ⟨c4_claim "microservices" 3 ['a', ' ', 'b'] ['7']
      (by decide) (by decide) (by decide) (by decide),
   by decide, by decide⟩

/-- C5: the batch timestamp is a single value fixed at the start of an
invocation, and every record returned by either parsing mode carries exactly
that value in its `time` field. -/
theorem c5_claim :
    (∀ (mode text : String) (t : Nat), ∀ r ∈ (extractWord mode text t).1, r.time = t) ∧
    (∀ (data : List PromEntry) (t : Nat), ∀ r ∈ parseProm data t, r.time = t) := by
  constructor
  · intro mode text t r hr
    obtain ⟨e, _, hre⟩ := extractWordAux_mem mode t _ r hr
    exact parseLineCore_time t e r hre
  · intro data t r hr
    exact parsePromAux_time t data [] r hr

/-- C5 (witness): a concrete record of a concrete batch carries the batch
timestamp. -/
theorem c5_witness :
    (⟨"a", .num (.fin 1), 7, "Event"⟩ : MetricRecord) ∈ (extractWord "kafka" "a 1" 7).1 ∧
    (⟨"a", .num (.fin 1), 7, "Event"⟩ : MetricRecord).time = 7 :=
  ⟨by decide, c5_claim.1 "kafka" "a 1" 7 _ (by decide)⟩

/-- C6: in both modes, no returned record has a NaN value: every record's
value coerces to a non-NaN number, and is never the literal string
`"NaN"`. -/
theorem c6_claim :
    (∀ (mode text : String) (t : Nat), ∀ r ∈ (extractWord mode text t).1,
      toNumber r.value ≠ JSNum.nan ∧ r.value ≠ JSVal.str "NaN") ∧
    (∀ (data : List PromEntry) (t : Nat), ∀ r ∈ parseProm data t,
      toNumber r.value ≠ JSNum.nan ∧ r.value ≠ JSVal.str "NaN") := by
  constructor
  · intro mode text t r hr
    obtain ⟨e, _, hre⟩ := extractWordAux_mem mode t _ r hr
    obtain ⟨n, hv, hn⟩ := parseLineCore_value t e r hre
    rw [hv]
    exact ⟨by simpa [toNumber] using hn, by simp⟩
  · intro data t r hr
    exact parsePromAux_value t data [] r hr

/-- C6 (witness): a concrete structured-mode record is non-NaN. -/
theorem c6_witness :
    (⟨"j/i/n", .str "3.14", 0, "Event"⟩ : MetricRecord) ∈
      parseProm [⟨⟨some "j", some "i", some "n"⟩,
        .arr [.num (.fin 1700000000), .str "3.14"]⟩] 0 ∧
    (toNumber (JSVal.str "3.14") ≠ JSNum.nan ∧ JSVal.str "3.14" ≠ JSVal.str "NaN") :=
  ⟨by decide, c6_claim.2 [⟨⟨some "j", some "i", some "n"⟩,
    .arr [.num (.fin 1700000000), .str "3.14"]⟩] 0
    ⟨"j/i/n", .str "3.14", 0, "Event"⟩ (by decide)⟩

/-- C7: text-mode filtering: empty lines and `#`-comment lines produce
nothing in any mode; lines opening with the exporter-internal `jmx` / `'jmx`
leaders produce nothing in kafka mode; and in any other mode such lines are
not filtered — the surviving line goes straight to the per-line parser. -/
theorem c7_claim (mode : String) (t : Nat) :
    (extractWord mode "" t = ([], [])) ∧
    (∀ l : List Char, l.head? = some '#' → '\n' ∉ l →
      extractWord mode ⟨l⟩ t = ([], [])) ∧
    (∀ l : List Char, '\n' ∉ l →
      (l.take 3 = ['j', 'm', 'x'] ∨ l.take 4 = ['\'', 'j', 'm', 'x']) →
      extractWord "kafka" ⟨l⟩ t = ([], [])) ∧
    (∀ l : List Char, mode ≠ "kafka" → '\n' ∉ l → l ≠ [] → ¬ (l.head? = some '#') →
      extractWord mode ⟨l⟩ t = parseLineCore t l) := by
  refine ⟨rfl, ?_, ?_, ?_⟩
  · intro l hh hnl
    show extractWordAux mode t (splitLines l) = _
    rw [splitLines_no_nl hnl]
    simp [extractWordAux, hh]
  · intro l hnl htake
    show extractWordAux "kafka" t (splitLines l) = _
    rw [splitLines_no_nl hnl]
    have hne : l ≠ [] := by
      rcases htake with h | h <;> rintro rfl <;> simp at h
    have hh : ¬ (l.head? = some '#') := by
      intro hc
      cases l with
      | nil => simp at hc
      | cons c cs =>
        simp only [List.head?_cons, Option.some.injEq] at hc
        subst hc
        rcases htake with h | h <;> simp [List.take_succ_cons] at h
    simp only [extractWordAux]
    rw [if_neg (not_or.mpr ⟨hne, hh⟩), if_pos ⟨trivial, htake⟩]
  · intro l hm hnl hne hh
    exact extractWord_single mode t l hnl hne hh (fun hc => hm hc.1)

/-- C7 (witness): the four parts on concrete lines. -/
theorem c7_witness :
    extractWord "microservices" "" 3 = ([], []) ∧
    extractWord "microservices" ⟨['#', 'x']⟩ 3 = ([], []) ∧
    extractWord "kafka" ⟨['j', 'm', 'x', '_', 'a']⟩ 3 = ([], []) ∧
    extractWord "microservices" ⟨['j', 'm', 'x', ' ', '1']⟩ 3 =
      parseLineCore 3 ['j', 'm', 'x', ' ', '1'] :=
  ⟨(c7_claim "microservices" 3).1,
   (c7_claim "microservices" 3).2.1 ['#', 'x'] (by decide) (by decide),
   (c7_claim "kafka" 3).2.2.1 ['j', 'm', 'x', '_', 'a'] (by decide) (by decide),
   (c7_claim "microservices" 3).2.2.2 ['j', 'm', 'x', ' ', '1']
     (by decide) (by decide) (by decide) (by decide)⟩

/-- C8: invoking the pipeline-selection step with a mode outside the
recognized set raises (`throw new Error('Unrecognized mode')`), modelled as
`Except.error`, rather than returning a URI. -/
theorem c8_claim (c : ChronosConfig) (h : c.mode ∉ modeTypes) :
    getMetricsURI c = .error "Unrecognized mode" := by
  have h1 : ¬ (c.mode = "kafka") := fun hc => h (by simp [modeTypes, hc])
  have h2 : ¬ (c.mode = "kubernetes") := fun hc => h (by simp [modeTypes, hc])
  simp [getMetricsURI, h1, h2]

/-- C8 (witness): a concrete unrecognized mode. -/
theorem c8_witness : getMetricsURI ⟨"REST", "u", "s", 1⟩ = .error "Unrecognized mode" :=
  c8_claim ⟨"REST", "u", "s", 1⟩ (by decide)

/-- C9: in text mode a surviving line with no space has last-space index
`-1`, so `slice(0, -1)` makes the metric the line minus its final character
and `slice(0)` makes the candidate value the coercion of the whole line; when
that coercion succeeds the line is not rejected and yields exactly that
record. -/
theorem c9_claim (mode : String) (t : Nat) (l : List Char)
    (hs : ' ' ∉ l) (hnl : '\n' ∉ l) (hne : l ≠ [])
    (hh : ¬ (l.head? = some '#'))
    (hk : ¬ (mode = "kafka" ∧
      (l.take 3 = ['j', 'm', 'x'] ∨ l.take 4 = ['\'', 'j', 'm', 'x'])))
    (hv : strToNum l ≠ JSNum.nan) :
    extractWord mode ⟨l⟩ t = ([⟨⟨l.dropLast⟩, .num (strToNum l), t, "Event"⟩], []) := by
  rw [extractWord_single mode t l hnl hne hh hk, parseLineCore_no_space t l hs hne,
    if_pos hv]

/-- C9 (witness): the line `"42"` yields the record with metric `"4"` and
value `42`. -/
theorem c9_witness :
    extractWord "microservices" ⟨['4', '2']⟩ 5 =
      ([⟨⟨['4', '2'].dropLast⟩, .num (strToNum ['4', '2']), 5, "Event"⟩], []) ∧
    (⟨['4', '2'].dropLast⟩ : String) = "4" ∧ strToNum ['4', '2'] = .fin 42 :=
  ⟨c9_claim "microservices" 5 ['4', '2'] (by decide) (by decide) (by decide)
      (by decide) (by decide) (by decide),
   by decide, by decide⟩

/-- C10: a structured-mode entry whose metric object has a falsy `job`
value (the empty string, or an absent field) is skipped exactly as if the
field were absent: the rejection tests truthiness, not presence. -/
theorem c10_claim (m : PromMetric) (v : PromValue) (rest : List PromEntry) (t : Nat)
    (h : m.job = some "" ∨ m.job = none) :
    parseProm (⟨m, v⟩ :: rest) t = parseProm rest t := by
  have hf : truthy m.job = false := by rcases h with h | h <;> simp [truthy, h]
  simp [parseProm, parsePromAux, hf]

/-- C10 (witness): an entry with `job: ""` contributes nothing. -/
theorem c10_witness :
    parseProm [⟨⟨some "", some "i", some "n"⟩, .num (.fin 5)⟩] 0 = parseProm [] 0 :=
  c10_claim ⟨some "", some "i", some "n"⟩ (.num (.fin 5)) [] 0 (Or.inl rfl)

end Chronos
